import Mathlib

/-!
Formal model of the passgen_ui repository: the vault storage engine
(src/passgen_core/storage.rs), the password generator and input-field model
(src/passgen_core/app.rs), and the interactive session state machine
(src/main.rs), together with theorems settling the specification claims.

Modelling conventions:
* Machine bytes and 64-bit words are `Nat` with explicit `% 2^64` where
  overflow matters; byte lists are `List Nat` with `< 256` side conditions.
* Randomness (salts, nonces, password sampling) is passed in explicitly.
* The single vault file is a `VaultFile` value threaded through operations.
* External library primitives that are not part of the repository
  (the aes_gcm AEAD cipher, serde_json + UTF-8 serialization) are modelled
  by executable idealizations faithful to their documented contracts; the
  base64 codec and the DefaultHasher (SipHash-1-3) key-derivation hash are
  implemented concretely.
-/

/-! ## Bytes and 64-bit words -/

/-- Modulus for 64-bit wraparound arithmetic. -/
def M64 : Nat := 18446744073709551616

/-- Rotate a 64-bit word (represented as a `Nat` below `2^64`) left by `n`. -/
def rotl64 (x n : Nat) : Nat :=
  ((x <<< n) % M64) ||| (x >>> (64 - n))

/-- Little-endian value of a byte list (first byte least significant). -/
def le64 (bytes : List Nat) : Nat :=
  bytes.foldr (fun b acc => b + 256 * acc) 0

/-- The eight little-endian bytes of a 64-bit word, as `u64::to_le_bytes`. -/
def le64Bytes (h : Nat) : List Nat :=
  [h % 256, h / 256 % 256, h / 65536 % 256, h / 16777216 % 256,
   h / 4294967296 % 256, h / 1099511627776 % 256,
   h / 281474976710656 % 256, h / 72057594037927936 % 256]

theorem le64Bytes_length (h : Nat) : (le64Bytes h).length = 8 := rfl

theorem le64Bytes_lt (h : Nat) : ∀ b ∈ le64Bytes h, b < 256 := by
  intro b hb
  simp only [le64Bytes, List.mem_cons, List.not_mem_nil, or_false] at hb
  rcases hb with rfl | rfl | rfl | rfl | rfl | rfl | rfl | rfl <;> omega

/-! ## SipHash-1-3, the hash behind Rust's DefaultHasher

`std::collections::hash_map::DefaultHasher::new()` is SipHash-1-3 with both
keys zero.  `storage.rs` feeds it byte slices (which Rust hashes as an
8-byte little-endian length prefix followed by the raw bytes) and `u64`
values (8 little-endian bytes). -/

structure SipState where
  v0 : Nat
  v1 : Nat
  v2 : Nat
  v3 : Nat

/-- One SipHash round. -/
def sipRound (s : SipState) : SipState :=
  let v0 := (s.v0 + s.v1) % M64
  let v1 := rotl64 s.v1 13
  let v1 := v1 ^^^ v0
  let v0 := rotl64 v0 32
  let v2 := (s.v2 + s.v3) % M64
  let v3 := rotl64 s.v3 16
  let v3 := v3 ^^^ v2
  let v0 := (v0 + v3) % M64
  let v3 := rotl64 v3 21
  let v3 := v3 ^^^ v0
  let v2 := (v2 + v1) % M64
  let v1 := rotl64 v1 17
  let v1 := v1 ^^^ v2
  let v2 := rotl64 v2 32
  ⟨v0, v1, v2, v3⟩

/-- Absorb one 8-byte message word (SipHash-1-3: one compression round). -/
def sipCompress (s : SipState) (m : Nat) : SipState :=
  let s := { s with v3 := s.v3 ^^^ m }
  let s := sipRound s
  { s with v0 := s.v0 ^^^ m }

/-- Consume the byte stream in 8-byte words, then the padded final word
carrying the total length in the top byte, then finalize with three rounds. -/
def sipBlocks (s : SipState) (len : Nat) : List Nat → Nat
  | b0 :: b1 :: b2 :: b3 :: b4 :: b5 :: b6 :: b7 :: rest =>
      sipBlocks (sipCompress s (le64 [b0, b1, b2, b3, b4, b5, b6, b7])) len rest
  | rest =>
      let b := (le64 rest + ((len % 256) <<< 56)) % M64
      let s := sipCompress s b
      let s := { s with v2 := s.v2 ^^^ 0xff }
      let s := sipRound (sipRound (sipRound s))
      s.v0 ^^^ s.v1 ^^^ s.v2 ^^^ s.v3

/-- SipHash-1-3 of a byte stream with both keys zero, as produced by a fresh
`DefaultHasher` after the given writes and a call to `finish()`. -/
def sipHash13 (bytes : List Nat) : Nat :=
  sipBlocks ⟨0x736f6d6570736575, 0x646f72616e646f6d, 0x6c7967656e657261, 0x7465646279746573⟩
    bytes.length bytes

/-! ## Key derivation (`Storage::derive_key`) -/

/-- First loop of `derive_key`: byte `i` of the initial key is the low byte
of the hash of `combined` (hashed as a byte slice) followed by `i as u64`. -/
def round1Byte (combined : List Nat) (i : Nat) : Nat :=
  sipHash13 (le64Bytes combined.length ++ combined ++ le64Bytes i) &&& 0xFF

/-- In-place xor of byte `b` into position `j` of the key. -/
def xorAt (key : List Nat) (j b : Nat) : List Nat :=
  key.set j ((key.getD j 0) ^^^ b)

/-- One iteration of the strengthening loop of `derive_key`: hash the current
key (as a 32-byte slice) and the salt (as a slice), then xor the eight
little-endian bytes of the hash into `key[i % 32]` for `i = 0..8`. -/
def strengthenStep (salt key : List Nat) : List Nat :=
  let h := sipHash13 (le64Bytes key.length ++ key ++ le64Bytes salt.length ++ salt)
  ((le64Bytes h).enum).foldl (fun k p => xorAt k (p.1 % 32) p.2) key

/-- The strengthening loop, iterated. -/
def iterStrengthen (salt : List Nat) : Nat → List Nat → List Nat
  | 0, k => k
  | n + 1, k => strengthenStep salt (iterStrengthen salt n k)

/-- `Storage::derive_key`: 32 bytes from the first hashing loop, then 10000
strengthening iterations.  Pure and total by construction, mirroring the
source, which touches no state and has no error path. -/
def derive_key (password salt : List Nat) : List Nat :=
  let combined := password ++ salt
  let key1 := (List.range 32).map (round1Byte combined)
  iterStrengthen salt 10000 key1

theorem xorAt_length (key : List Nat) (j b : Nat) :
    (xorAt key j b).length = key.length := by
  simp [xorAt]

theorem strengthenStep_length (salt key : List Nat) :
    (strengthenStep salt key).length = key.length := by
  simp [strengthenStep, List.enum, le64Bytes, List.foldl, xorAt_length]

theorem iterStrengthen_length (salt : List Nat) (n : Nat) (key : List Nat) :
    (iterStrengthen salt n key).length = key.length := by
  induction n with
  | zero => rfl
  | succ n ih => simp [iterStrengthen, strengthenStep_length, ih]

/-- The derived key is always exactly 32 bytes long. -/
theorem derive_key_length (password salt : List Nat) :
    (derive_key password salt).length = 32 := by
  simp [derive_key, iterStrengthen_length]

theorem xorAt_lt (key : List Nat) (j b : Nat)
    (hk : ∀ x ∈ key, x < 256) (hb : b < 256) :
    ∀ x ∈ xorAt key j b, x < 256 := by
  intro x hx
  rcases List.mem_or_eq_of_mem_set hx with h | rfl
  · exact hk x h
  · have h1 : key.getD j 0 < 256 := by
      rcases Nat.lt_or_ge j key.length with hj | hj
      · rw [List.getD_eq_getElem key 0 hj]
        exact hk _ (List.getElem_mem hj)
      · rw [List.getD_eq_default key 0 hj]
        omega
    have h2 : key.getD j 0 ^^^ b < 2 ^ 8 :=
      Nat.xor_lt_two_pow (n := 8) h1 hb
    simpa using h2

theorem strengthenStep_lt (salt key : List Nat) (hk : ∀ x ∈ key, x < 256) :
    ∀ x ∈ strengthenStep salt key, x < 256 := by
  have step : ∀ (l : List (Nat × Nat)) (k : List Nat), (∀ x ∈ k, x < 256) →
      (∀ p ∈ l, p.2 < 256) →
      ∀ x ∈ l.foldl (fun k p => xorAt k (p.1 % 32) p.2) k, x < 256 := by
    intro l
    induction l with
    | nil => intro k hkk _ x hx; exact hkk x hx
    | cons p t ih =>
        intro k hkk hl x hx
        exact ih _ (xorAt_lt _ _ _ hkk (hl p (by simp))) (fun q hq => hl q (by simp [hq])) x hx
  intro x hx
  refine step _ key hk ?_ x hx
  intro p hp
  have := List.snd_mem_of_mem_enum hp
  exact le64Bytes_lt _ _ this

theorem round1Byte_lt (combined : List Nat) (i : Nat) : round1Byte combined i < 256 := by
  have : round1Byte combined i ≤ 0xFF := Nat.and_le_right
  omega

theorem iterStrengthen_lt (salt : List Nat) (n : Nat) (key : List Nat)
    (hk : ∀ x ∈ key, x < 256) : ∀ x ∈ iterStrengthen salt n key, x < 256 := by
  induction n with
  | zero => exact hk
  | succ n ih => exact strengthenStep_lt _ _ ih

/-- Every byte of the derived key is below 256. -/
theorem derive_key_lt (password salt : List Nat) :
    ∀ x ∈ derive_key password salt, x < 256 := by
  refine iterStrengthen_lt _ _ _ ?_
  intro x hx
  rcases List.mem_map.mp hx with ⟨i, _, rfl⟩
  exact round1Byte_lt _ i

/-! ## Base64 (the base64 crate's STANDARD engine) -/

/-- The standard base64 alphabet. -/
def b64Alphabet : List Char :=
  "ABCDEFGHIJKLMNOPQRSTUVWXYZabcdefghijklmnopqrstuvwxyz0123456789+/".data

/-- Character for a six-bit value. -/
def b64Char (v : Nat) : Char := b64Alphabet.getD v 'A'

/-- Six-bit value of an alphabet character, `none` for anything else. -/
def b64Index (c : Char) : Option Nat := b64Alphabet.indexOf? c

/-- Base64 encoding of a byte list, processing three bytes into four
characters and padding the final group with `=`. -/
def b64EncodeChars : List Nat → List Char
  | [] => []
  | [b0] => [b64Char (b0 / 4), b64Char (b0 % 4 * 16), '=', '=']
  | [b0, b1] => [b64Char (b0 / 4), b64Char (b0 % 4 * 16 + b1 / 16), b64Char (b1 % 16 * 4), '=']
  | b0 :: b1 :: b2 :: rest =>
      b64Char (b0 / 4) :: b64Char (b0 % 4 * 16 + b1 / 16) ::
      b64Char (b1 % 16 * 4 + b2 / 64) :: b64Char (b2 % 64) :: b64EncodeChars rest

/-- `BASE64.encode` of storage.rs. -/
def b64encode (bytes : List Nat) : String := String.mk (b64EncodeChars bytes)

/-- Strict base64 decoding on characters: groups of four, padding only in
the final group, canonical trailing bits. -/
def b64DecodeChars : List Char → Option (List Nat)
  | [] => some []
  | c0 :: c1 :: c2 :: c3 :: rest =>
      match b64Index c0, b64Index c1 with
      | some v0, some v1 =>
        if c2 = '=' then
          if c3 = '=' ∧ rest = [] then
            if v1 % 16 = 0 then some [v0 * 4 + v1 / 16] else none
          else none
        else
          match b64Index c2 with
          | some v2 =>
            if c3 = '=' then
              if rest = [] then
                if v2 % 4 = 0 then some [v0 * 4 + v1 / 16, v1 % 16 * 16 + v2 / 4] else none
              else none
            else
              match b64Index c3, b64DecodeChars rest with
              | some v3, some tail =>
                  some ((v0 * 4 + v1 / 16) :: (v1 % 16 * 16 + v2 / 4) ::
                        (v2 % 4 * 64 + v3) :: tail)
              | _, _ => none
          | none => none
      | _, _ => none
  | _ => none

/-- `BASE64.decode` of storage.rs. -/
def b64decode (s : String) : Option (List Nat) := b64DecodeChars s.data

theorem b64Index_b64Char : ∀ v < 64, b64Index (b64Char v) = some v := by decide

theorem b64Char_ne_eq : ∀ v < 64, ¬ (b64Char v = '=') := by decide

theorem b64DecodeChars_encode (l : List Nat) (h : ∀ b ∈ l, b < 256) :
    b64DecodeChars (b64EncodeChars l) = some l := by
  induction l using b64EncodeChars.induct with
  | case1 => rfl
  | case2 b0 =>
      have hb0 : b0 < 256 := h b0 (by simp)
      have v0 : b0 / 4 < 64 := by omega
      have v1 : b0 % 4 * 16 < 64 := by omega
      simp only [b64EncodeChars, b64DecodeChars, b64Index_b64Char _ v0,
        b64Index_b64Char _ v1, b64Char_ne_eq _ v0, b64Char_ne_eq _ v1]
      have : (b0 % 4 * 16) % 16 = 0 := by omega
      simp [this]
      omega
  | case3 b0 b1 =>
      have hb0 : b0 < 256 := h b0 (by simp)
      have hb1 : b1 < 256 := h b1 (by simp)
      have v0 : b0 / 4 < 64 := by omega
      have v1 : b0 % 4 * 16 + b1 / 16 < 64 := by omega
      have v2 : b1 % 16 * 4 < 64 := by omega
      simp only [b64EncodeChars, b64DecodeChars, b64Index_b64Char _ v0,
        b64Index_b64Char _ v1, b64Index_b64Char _ v2, b64Char_ne_eq _ v0,
        b64Char_ne_eq _ v1, b64Char_ne_eq _ v2, if_neg (b64Char_ne_eq _ v2)]
      have : (b1 % 16 * 4) % 4 = 0 := by omega
      simp [this]
      constructor <;> omega
  | case4 b0 b1 b2 rest ih =>
      have hb0 : b0 < 256 := h b0 (by simp)
      have hb1 : b1 < 256 := h b1 (by simp)
      have hb2 : b2 < 256 := h b2 (by simp)
      have v0 : b0 / 4 < 64 := by omega
      have v1 : b0 % 4 * 16 + b1 / 16 < 64 := by omega
      have v2 : b1 % 16 * 4 + b2 / 64 < 64 := by omega
      have v3 : b2 % 64 < 64 := by omega
      have ihh := ih (fun b hb => h b (by simp [hb]))
      simp only [b64EncodeChars, b64DecodeChars, b64Index_b64Char _ v0,
        b64Index_b64Char _ v1, b64Index_b64Char _ v2, b64Index_b64Char _ v3,
        b64Char_ne_eq _ v2, b64Char_ne_eq _ v3, if_neg (b64Char_ne_eq _ v2),
        if_neg (b64Char_ne_eq _ v3), ihh]
      refine congrArg some ?_
      congr 1
      · omega
      congr 1
      · omega
      congr 1
      omega

/-- Base64 decoding inverts encoding on genuine byte lists. -/
theorem b64decode_encode (l : List Nat) (h : ∀ b ∈ l, b < 256) :
    b64decode (b64encode l) = some l :=
  b64DecodeChars_encode l h

/-! ## Password entries and the plaintext codec

`PasswordEntry` is the record of storage.rs.  The inner plaintext codec of
the vault (serde_json serialization of `Vec<PasswordEntry>` plus the UTF-8
string layer) is external library code, not part of this repository; it is
modelled below by an executable injective byte serialization faithful to its
contract (spec section 4.2): canonical, order-preserving, lossless round
trip for the three text fields, with decoding failing on malformed input. -/

structure PasswordEntry where
  name : String
  password : String
  created_at : String
deriving DecidableEq, Repr

/-- Self-delimiting encoding of a count (model-internal framing). -/
def encNat (n : Nat) : List Nat := List.replicate n 1 ++ [0]

/-- Encoding of one character as three bytes, low byte first. -/
def encChar (c : Char) : List Nat :=
  [c.toNat % 256, c.toNat / 256 % 256, c.toNat / 65536 % 256]

/-- Encoding of a string: character count, then the characters. -/
def encStr (s : String) : List Nat :=
  encNat s.data.length ++ s.data.foldr (fun c acc => encChar c ++ acc) []

/-- Encoding of one entry: its three fields in order. -/
def encEntry (e : PasswordEntry) : List Nat :=
  encStr e.name ++ encStr e.password ++ encStr e.created_at

/-- Model of `serde_json::to_string(&entries).as_bytes()`: the plaintext
byte serialization of the entry list. -/
def encodeEntries (entries : List PasswordEntry) : List Nat :=
  encNat entries.length ++ entries.foldr (fun e acc => encEntry e ++ acc) []

def decNat : List Nat → Option (Nat × List Nat)
  | 0 :: rest => some (0, rest)
  | 1 :: rest =>
      match decNat rest with
      | some (n, r) => some (n + 1, r)
      | none => none
  | _ => none

def decCharsN : Nat → List Nat → Option (List Char × List Nat)
  | 0, rest => some ([], rest)
  | n + 1, a :: b :: c :: rest =>
      match decCharsN n rest with
      | some (l, r) => some (Char.ofNat (a + 256 * b + 65536 * c) :: l, r)
      | none => none
  | _ + 1, _ => none

def decStr (bytes : List Nat) : Option (String × List Nat) :=
  match decNat bytes with
  | some (n, r) =>
      match decCharsN n r with
      | some (l, r2) => some (String.mk l, r2)
      | none => none
  | none => none

def decEntry (bytes : List Nat) : Option (PasswordEntry × List Nat) :=
  match decStr bytes with
  | some (n, r) =>
      match decStr r with
      | some (p, r2) =>
          match decStr r2 with
          | some (c, r3) => some (⟨n, p, c⟩, r3)
          | none => none
      | none => none
  | none => none

def decEntriesN : Nat → List Nat → Option (List PasswordEntry × List Nat)
  | 0, rest => some ([], rest)
  | n + 1, bytes =>
      match decEntry bytes with
      | some (e, r) =>
          match decEntriesN n r with
          | some (l, r2) => some (e :: l, r2)
          | none => none
      | none => none

/-- Model of `serde_json::from_str::<Vec<PasswordEntry>>` after the UTF-8
check: decodes the full plaintext, failing on malformed or trailing data. -/
def decodeEntries (bytes : List Nat) : Option (List PasswordEntry) :=
  match decNat bytes with
  | some (n, r) =>
      match decEntriesN n r with
      | some (l, []) => some l
      | _ => none
  | none => none

theorem decNat_encNat (n : Nat) (rest : List Nat) :
    decNat (encNat n ++ rest) = some (n, rest) := by
  induction n with
  | zero => rfl
  | succ n ih => simp [encNat, List.replicate_succ, decNat] at ih ⊢; simp [ih]

theorem char_toNat_lt (c : Char) : c.toNat < 1114112 := by
  have := c.valid
  rcases this with h | ⟨h1, h2⟩
  · have : c.val.toNat < 55296 := h
    simpa [Char.toNat] using by omega
  · have : c.val.toNat < 1114112 := h2
    simpa [Char.toNat] using this

theorem decCharsN_encChars (l : List Char) (rest : List Nat) :
    decCharsN l.length ((l.foldr (fun c acc => encChar c ++ acc) []) ++ rest) =
      some (l, rest) := by
  induction l with
  | nil => rfl
  | cons c t ih =>
      have hc : c.toNat % 256 + 256 * (c.toNat / 256 % 256) + 65536 * (c.toNat / 65536 % 256)
          = c.toNat := by
        have := char_toNat_lt c
        omega
      simp only [List.foldr_cons, List.length_cons]
      rw [show encChar c = [c.toNat % 256, c.toNat / 256 % 256, c.toNat / 65536 % 256] from rfl]
      simp only [List.cons_append, decCharsN, List.append_eq, List.nil_append]
      rw [ih]
      simp [hc, Char.ofNat_toNat]

theorem decStr_encStr (s : String) (rest : List Nat) :
    decStr (encStr s ++ rest) = some (s, rest) := by
  obtain ⟨data⟩ := s
  simp only [encStr, List.append_assoc, decStr, decNat_encNat, decCharsN_encChars]

theorem decEntry_encEntry (e : PasswordEntry) (rest : List Nat) :
    decEntry (encEntry e ++ rest) = some (e, rest) := by
  obtain ⟨n, p, c⟩ := e
  simp only [encEntry, List.append_assoc, decEntry, decStr_encStr]

theorem decEntriesN_encEntries (l : List PasswordEntry) (rest : List Nat) :
    decEntriesN l.length ((l.foldr (fun e acc => encEntry e ++ acc) []) ++ rest) =
      some (l, rest) := by
  induction l with
  | nil => rfl
  | cons e t ih =>
      simp only [List.foldr_cons, List.length_cons, List.append_assoc, decEntriesN,
        decEntry_encEntry, ih]

/-- The plaintext codec round-trips every entry list. -/
theorem decodeEntries_encodeEntries (entries : List PasswordEntry) :
    decodeEntries (encodeEntries entries) = some entries := by
  have h := decEntriesN_encEntries entries []
  simp only [List.append_nil] at h
  simp only [encodeEntries, decodeEntries, decNat_encNat, h]

theorem encNat_lt (n : Nat) : ∀ b ∈ encNat n, b < 256 := by
  intro b hb
  simp only [encNat, List.mem_append, List.mem_replicate, List.mem_singleton] at hb
  rcases hb with ⟨_, rfl⟩ | rfl <;> omega

theorem encChar_lt (c : Char) : ∀ b ∈ encChar c, b < 256 := by
  intro b hb
  simp only [encChar, List.mem_cons, List.not_mem_nil, or_false] at hb
  rcases hb with rfl | rfl | rfl <;> omega

theorem encCharsFold_lt (l : List Char) :
    ∀ b ∈ l.foldr (fun c acc => encChar c ++ acc) [], b < 256 := by
  induction l with
  | nil => simp
  | cons c t ih =>
      intro b hb
      simp only [List.foldr_cons, List.mem_append] at hb
      rcases hb with hb | hb
      · exact encChar_lt c b hb
      · exact ih b hb

theorem encStr_lt (s : String) : ∀ b ∈ encStr s, b < 256 := by
  intro b hb
  simp only [encStr, List.mem_append] at hb
  rcases hb with hb | hb
  · exact encNat_lt _ b hb
  · exact encCharsFold_lt _ b hb

theorem encEntry_lt (e : PasswordEntry) : ∀ b ∈ encEntry e, b < 256 := by
  intro b hb
  simp only [encEntry, List.mem_append] at hb
  rcases hb with (hb | hb) | hb
  · exact encStr_lt _ b hb
  · exact encStr_lt _ b hb
  · exact encStr_lt _ b hb

theorem encEntriesFold_lt (l : List PasswordEntry) :
    ∀ b ∈ l.foldr (fun e acc => encEntry e ++ acc) [], b < 256 := by
  induction l with
  | nil => simp
  | cons e t ih =>
      intro b hb
      simp only [List.foldr_cons, List.mem_append] at hb
      rcases hb with hb | hb
      · exact encEntry_lt e b hb
      · exact ih b hb

/-- Every byte of the serialized entry list is below 256. -/
theorem encodeEntries_lt (entries : List PasswordEntry) :
    ∀ b ∈ encodeEntries entries, b < 256 := by
  intro b hb
  simp only [encodeEntries, List.mem_append] at hb
  rcases hb with hb | hb
  · exact encNat_lt _ b hb
  · exact encEntriesFold_lt _ b hb

/-! ## Authenticated encryption model

AES-256-GCM comes from the external aes_gcm crate, not this repository.
It is modelled by an idealized executable AEAD faithful to the contract in
spec section 4.2: sealing binds the ciphertext to the key and nonce, and
opening succeeds exactly when the authentication material matches, which is
the sole mechanism distinguishing a wrong key from success. -/

/-- Model of `cipher.encrypt(nonce, plaintext)`: the ciphertext carries the
plaintext plus authentication material binding key and nonce. -/
def sealAEAD (key nonce plaintext : List Nat) : List Nat :=
  plaintext ++ key ++ nonce

/-- Model of `cipher.decrypt(nonce, ciphertext)`: strips and verifies the
authentication material, failing on any mismatch. -/
def openAEAD (key nonce ciphertext : List Nat) : Option (List Nat) :=
  let tagLen := key.length + nonce.length
  if tagLen ≤ ciphertext.length ∧ ciphertext.drop (ciphertext.length - tagLen) = key ++ nonce
  then some (ciphertext.take (ciphertext.length - tagLen)) else none

theorem openAEAD_sealAEAD (key nonce plaintext : List Nat) :
    openAEAD key nonce (sealAEAD key nonce plaintext) = some plaintext := by
  have hlen : (sealAEAD key nonce plaintext).length - (key.length + nonce.length)
      = plaintext.length := by
    simp [sealAEAD]
  have hdrop : (plaintext ++ (key ++ nonce)).drop plaintext.length = key ++ nonce :=
    List.drop_left plaintext (key ++ nonce)
  have htake : (plaintext ++ (key ++ nonce)).take plaintext.length = plaintext :=
    List.take_left plaintext (key ++ nonce)
  simp only [openAEAD, hlen, sealAEAD, List.append_assoc, hdrop, htake]
  simp [sealAEAD]

/-- Opening with a different key of the same length always fails. -/
theorem openAEAD_wrong_key (key key2 nonce plaintext : List Nat)
    (hlen : key2.length = key.length) (hne : key2 ≠ key) :
    openAEAD key2 nonce (sealAEAD key nonce plaintext) = none := by
  have hdrop : (plaintext ++ (key ++ nonce)).drop plaintext.length = key ++ nonce :=
    List.drop_left plaintext (key ++ nonce)
  simp only [openAEAD, sealAEAD, List.append_assoc]
  have hl : (plaintext ++ (key ++ nonce)).length - (key2.length + nonce.length)
      = plaintext.length := by
    simp [List.length_append, hlen]
  rw [hl, hdrop, if_neg]
  rintro ⟨-, h⟩
  exact hne (List.append_cancel_right h).symm

/-! ## The vault file and the storage engine (`Storage`)

`Storage` holds the derived master key; the fixed vault path is implicit
(exactly one vault file exists, modelled as a `VaultFile` value threaded
through each operation).  Randomness — the fresh salt drawn by
`Storage::new` for a missing file, the per-save nonce, the fallback salt of
`save_all`, the rotation salt — enters as explicit arguments.  Rust errors
are `String`s in the source; they are mirrored by `StorageErr`, one
constructor per distinct error message. -/

/-- The on-disk record of storage.rs, with the three base64 text fields. -/
structure EncryptedStore where
  salt : String
  nonce : String
  ciphertext : String
deriving DecidableEq, Repr

/-- State of the single vault file: absent, present but not parsable as an
`EncryptedStore` (serde_json failure on read), or a parsed envelope. -/
inductive VaultFile where
  | absent
  | corrupt
  | stored (env : EncryptedStore)
deriving DecidableEq, Repr

/-- One constructor per distinct error produced by storage.rs. -/
inductive StorageErr where
  | ioError
  | invalidFormat
  | invalidSalt
  | invalidNonce
  | invalidCiphertext
  | authFailed
  | invalidJson
  | invalidIndex
deriving DecidableEq, Repr

structure Storage where
  master_key : List Nat
deriving DecidableEq, Repr

/-- `Storage::new(master_password)`: on an existing parsable file, derive the
key from the stored salt; on a missing file, draw `freshSalt` and derive
from it (nothing is written).  Note the drawn salt is then discarded — the
source binds it as `_salt`. -/
def Storage.new (master_password : List Nat) (freshSalt : List Nat)
    (file : VaultFile) : Except StorageErr Storage :=
  match file with
  | .absent => .ok ⟨derive_key master_password freshSalt⟩
  | .corrupt => .error .invalidFormat
  | .stored env =>
      match b64decode env.salt with
      | none => .error .invalidSalt
      | some salt => .ok ⟨derive_key master_password salt⟩

/-- `Storage::load`: missing file is an empty vault; otherwise decode the
envelope fields, decrypt with the held key, and decode the plaintext. -/
def Storage.load (self : Storage) (file : VaultFile) :
    Except StorageErr (List PasswordEntry) :=
  match file with
  | .absent => .ok []
  | .corrupt => .error .invalidFormat
  | .stored env =>
      match b64decode env.nonce with
      | none => .error .invalidNonce
      | some nonce_bytes =>
          match b64decode env.ciphertext with
          | none => .error .invalidCiphertext
          | some ciphertext =>
              match openAEAD self.master_key nonce_bytes ciphertext with
              | none => .error .authFailed
              | some plaintext =>
                  match decodeEntries plaintext with
                  | none => .error .invalidJson
                  | some entries => .ok entries

/-- `Storage::save_all`: serialize, seal under a fresh `nonce_bytes`, keep
the existing envelope's salt text if the file parses, otherwise encode the
freshly drawn `fallbackSalt`, and overwrite the whole file. -/
def Storage.save_all (self : Storage) (entries : List PasswordEntry)
    (nonce_bytes fallbackSalt : List Nat) (file : VaultFile) : VaultFile :=
  let json := encodeEntries entries
  let ciphertext := sealAEAD self.master_key nonce_bytes json
  let salt : String :=
    match file with
    | .stored env => env.salt
    | .corrupt => b64encode fallbackSalt
    | .absent => b64encode fallbackSalt
  .stored ⟨salt, b64encode nonce_bytes, b64encode ciphertext⟩

/-- `Storage::save(entry)`: `load().unwrap_or_default()`, append, rewrite.
The source swallows a load failure and proceeds with an empty list. -/
def Storage.save (self : Storage) (entry : PasswordEntry)
    (nonce_bytes fallbackSalt : List Nat) (file : VaultFile) :
    Except StorageErr Unit × VaultFile :=
  let entries := ((self.load file).toOption.getD []) ++ [entry]
  (.ok (), self.save_all entries nonce_bytes fallbackSalt file)

/-- `Storage::delete(index)`: load, bounds-check, remove, rewrite; on any
error the file is returned untouched (the source writes only via
`save_all`). -/
def Storage.delete (self : Storage) (index : Nat)
    (nonce_bytes fallbackSalt : List Nat) (file : VaultFile) :
    Except StorageErr Unit × VaultFile :=
  match self.load file with
  | .error e => (.error e, file)
  | .ok entries =>
      if index ≥ entries.length then (.error .invalidIndex, file)
      else (.ok (), self.save_all (entries.eraseIdx index) nonce_bytes fallbackSalt file)

/-- `Storage::update(index, entry)`: load, bounds-check, replace, rewrite. -/
def Storage.update (self : Storage) (index : Nat) (entry : PasswordEntry)
    (nonce_bytes fallbackSalt : List Nat) (file : VaultFile) :
    Except StorageErr Unit × VaultFile :=
  match self.load file with
  | .error e => (.error e, file)
  | .ok entries =>
      if index ≥ entries.length then (.error .invalidIndex, file)
      else (.ok (), self.save_all (entries.set index entry) nonce_bytes fallbackSalt file)

/-- `Storage::change_master_password(new_password)`: load with the current
key, draw `newSalt`, derive the new key, re-seal everything under the new
salt and key, overwrite the file, return the rebound store. -/
def Storage.change_master_password (self : Storage) (new_password : List Nat)
    (newSalt nonce_bytes : List Nat) (file : VaultFile) :
    Except StorageErr Storage × VaultFile :=
  match self.load file with
  | .error e => (.error e, file)
  | .ok entries =>
      let new_key := derive_key new_password newSalt
      let json := encodeEntries entries
      let ciphertext := sealAEAD new_key nonce_bytes json
      (.ok ⟨new_key⟩,
       .stored ⟨b64encode newSalt, b64encode nonce_bytes, b64encode ciphertext⟩)

/-! ## Password generator and input fields (app.rs) -/

/-- The six input fields of the main screen. -/
inductive InputField where
  | Name
  | Length
  | ToggleSpecial
  | ToggleLetters
  | ToggleNumbers
  | Generate
deriving DecidableEq, Repr

/-- `InputField::next`. -/
def InputField.next : InputField → InputField
  | .Name => .Length
  | .Length => .ToggleSpecial
  | .ToggleSpecial => .ToggleLetters
  | .ToggleLetters => .ToggleNumbers
  | .ToggleNumbers => .Generate
  | .Generate => .Name

/-- `InputField::prev`. -/
def InputField.prev : InputField → InputField
  | .Name => .Generate
  | .Length => .Name
  | .ToggleSpecial => .Length
  | .ToggleLetters => .ToggleSpecial
  | .ToggleNumbers => .ToggleLetters
  | .Generate => .ToggleNumbers

/-- Main application state of app.rs. -/
structure App where
  name_input : String
  length_input : String
  use_special : Bool
  use_letters : Bool
  use_numbers : Bool
  active_field : InputField
  generated_password : Option String
  error : Option String
  status_message : Option String
deriving DecidableEq, Repr

/-- `App::new`. -/
def App.new : App :=
  { name_input := ""
    length_input := "16"
    use_special := true
    use_letters := true
    use_numbers := true
    active_field := .Name
    generated_password := none
    error := none
    status_message := none }

/-- Model of `str::trim`: drop leading and trailing whitespace (the source
trims Unicode whitespace; the model covers the ASCII whitespace characters
of `Char.isWhitespace`, which agree on every input appearing here). -/
def rustTrim (s : String) : String :=
  String.mk (((s.data.dropWhile Char.isWhitespace).reverse.dropWhile
    Char.isWhitespace).reverse)

/-- `usize::from_str` as used by `length_input.parse::<usize>()`: an optional
leading `+`, then at least one ASCII digit, value below `2^64`; anything
else (including negative or overflowing input) is a parse error. -/
def parseUsize (s : String) : Option Nat :=
  let digits := match s.data with
    | '+' :: rest => rest
    | chars => chars
  if digits = [] then none
  else if digits.all (fun c => c.isDigit) then
    let v := digits.foldl (fun acc c => acc * 10 + (c.toNat - 48)) 0
    if v < 18446744073709551616 then some v else none
  else none

/-- The character classes concatenated in the fixed source order: lowercase
letters, uppercase letters, digits, punctuation. -/
def charsetOf (letters numbers special : Bool) : List Char :=
  (if letters then "abcdefghijklmnopqrstuvwxyzABCDEFGHIJKLMNOPQRSTUVWXYZ".data else []) ++
  (if numbers then "0123456789".data else []) ++
  (if special then "!@#$%^&*()_+-=[]\x7b\x7d|;:,.<>?".data else [])

/-- `App::generate`.  The source draws each character with
`rng.random_range(0..chars.len())`; the random draws enter here as `r`,
with `chars[r i]` modelled by `List.getD` (the source index is always in
range because `random_range(0..n)` yields a value below `n`). -/
def App.generate (app : App) (r : Nat → Nat) : App :=
  let app := { app with error := none, status_message := none, generated_password := none }
  if rustTrim app.name_input = "" then
    { app with error := some "Please enter a password name" }
  else
    match parseUsize app.length_input with
    | none => { app with error := some "Invalid length" }
    | some n =>
        if 0 < n ∧ n ≤ 128 then
          let charset := charsetOf app.use_letters app.use_numbers app.use_special
          if charset = [] then
            { app with error := some "Enable at least one character type" }
          else
            let password := String.mk ((List.range n).map (fun i => charset.getD (r i) 'a'))
            { app with generated_password := some password }
        else
          { app with error := some "Length must be 1-128" }

/-- `App::toggle_current`. -/
def App.toggle_current (app : App) (r : Nat → Nat) : App :=
  match app.active_field with
  | .ToggleSpecial => { app with use_special := !app.use_special }
  | .ToggleLetters => { app with use_letters := !app.use_letters }
  | .ToggleNumbers => { app with use_numbers := !app.use_numbers }
  | .Generate => app.generate r
  | _ => app

/-- `App::current_text_input` exists for mutation; modelled as the two edit
actions it enables. -/
def App.push_text (app : App) (c : Char) : App :=
  match app.active_field with
  | .Name => { app with name_input := app.name_input.push c }
  | .Length => { app with length_input := app.length_input.push c }
  | _ => app

def App.pop_text (app : App) : App :=
  match app.active_field with
  | .Name => { app with name_input := app.name_input.dropRight 1 }
  | .Length => { app with length_input := app.length_input.dropRight 1 }
  | _ => app

/-- `App::next_field`. -/
def App.next_field (app : App) : App :=
  { app with active_field := app.active_field.next }

/-- `App::prev_field`. -/
def App.prev_field (app : App) : App :=
  { app with active_field := app.active_field.prev }

/-- `App::get_entry`, with the clock's timestamp passed in. -/
def App.get_entry (app : App) (now : String) : Option PasswordEntry :=
  app.generated_password.map (fun pwd =>
    { name := app.name_input, password := pwd, created_at := now })

/-- `App::clear_for_next`. -/
def App.clear_for_next (app : App) : App :=
  { app with name_input := "", generated_password := none, active_field := .Name }

/-! ## UTF-8 bytes of a string (`str::as_bytes`) -/

/-- UTF-8 encoding of one scalar value. -/
def utf8Char (c : Char) : List Nat :=
  let n := c.toNat
  if n < 128 then [n]
  else if n < 2048 then [192 + n / 64, 128 + n % 64]
  else if n < 65536 then [224 + n / 4096, 128 + n / 64 % 64, 128 + n % 64]
  else [240 + n / 262144, 128 + n / 4096 % 64, 128 + n / 64 % 64, 128 + n % 64]

/-- The UTF-8 bytes of a string, as `master_password.as_bytes()` passed to
`derive_key`. -/
def strBytes (s : String) : List Nat :=
  s.data.foldr (fun c acc => utf8Char c ++ acc) []

/-! ## Session state machine (main.rs)

The event loop of `run` is modelled as a step function over an explicit
session state: one key event in, one updated state (plus the possibly
rewritten vault file and a quit flag) out.  `ViewMode` is referenced from
main.rs and ui.rs as `app::ViewMode`; its declaration is not among the
provided sources, so it is modelled from the spec (section 3: ViewerMode
is `Browse | ConfirmDelete | EditName | EditPassword`), which matches every
use site. -/

/-- Modelled from the spec: the viewer sub-mode enum `app::ViewMode`, whose
declaration is missing from the provided sources. -/
inductive ViewMode where
  | Browse
  | ConfirmDelete
  | EditName
  | EditPassword
deriving DecidableEq, Repr

/-- The rotation wizard steps of main.rs. -/
inductive ChangeStep where
  | EnterOld
  | EnterNew
  | ConfirmNew
deriving DecidableEq, Repr

/-- `Phase` of main.rs. -/
inductive Phase where
  | MasterPassword
  | Main
  | ChangeMasterPassword (step : ChangeStep)
  | ViewPasswords (mode : ViewMode)
deriving DecidableEq, Repr

/-- `ViewerState` of main.rs (`revealed` is a `HashSet<usize>`). -/
structure ViewerState where
  entries : List PasswordEntry
  selected : Nat
  revealed : Finset Nat
  status_message : Option String
  edit_buffer : String
deriving DecidableEq

/-- The mutable locals of `run`, gathered into one session state. -/
structure SessionState where
  app : App
  phase : Phase
  master_input : String
  new_password : String
  confirm_password : String
  storage : Option Storage
  viewer_state : Option ViewerState
deriving DecidableEq

/-- The state at the top of `run`. -/
def SessionState.init : SessionState :=
  { app := App.new
    phase := .MasterPassword
    master_input := ""
    new_password := ""
    confirm_password := ""
    storage := none
    viewer_state := none }

/-- Key events consumed by the loop (key presses only, as filtered by
`KeyEventKind::Press`). -/
inductive KeyCode where
  | esc
  | enter
  | backspace
  | tab
  | backTab
  | up
  | down
  | char (c : Char)
  | other
deriving DecidableEq, Repr

/-- External nondeterminism consumed by one loop iteration: random draws,
the clipboard outcome (`none` when `Clipboard::new()` fails, otherwise the
result of `set_text`), and the clock. -/
structure StepEnv where
  freshSalt : List Nat
  newSalt : List Nat
  nonce : List Nat
  fallbackSalt : List Nat
  genRandom : Nat → Nat
  clipboardOk : Option Bool
  now : String

/-- Result of one loop iteration. -/
structure StepResult where
  state : SessionState
  file : VaultFile
  quit : Bool
deriving DecidableEq

/-- The error text of each storage failure (the formatted payload of the
underlying library error is omitted). -/
def StorageErr.message : StorageErr → String
  | .ioError => "Failed to read file"
  | .invalidFormat => "Invalid file format"
  | .invalidSalt => "Invalid salt"
  | .invalidNonce => "Invalid nonce"
  | .invalidCiphertext => "Invalid ciphertext"
  | .authFailed => "Decryption failed - wrong master password?"
  | .invalidJson => "Invalid JSON"
  | .invalidIndex => "Invalid index"

/-- Fallback entry for modelled vector indexing (never reached when the
index is in bounds). -/
def defaultEntry : PasswordEntry := ⟨"", "", ""⟩

/-- One iteration of the event loop of `run`: dispatch one key event in the
current phase. -/
def step (s : SessionState) (file : VaultFile) (env : StepEnv) (k : KeyCode) : StepResult :=
  match s.phase with
  | .MasterPassword =>
      match k with
      | .esc => ⟨s, file, true⟩
      | .enter =>
          if s.master_input = "" then ⟨s, file, false⟩
          else
            match Storage.new (strBytes s.master_input) env.freshSalt file with
            | .ok st =>
                ⟨{ s with storage := some st, phase := .Main, master_input := "" }, file, false⟩
            | .error e =>
                ⟨{ s with app := { s.app with error := some e.message }, master_input := "" },
                 file, false⟩
      | .backspace => ⟨{ s with master_input := s.master_input.dropRight 1 }, file, false⟩
      | .char c => ⟨{ s with master_input := s.master_input.push c }, file, false⟩
      | _ => ⟨s, file, false⟩
  | .Main =>
      match k with
      | .esc => ⟨s, file, true⟩
      | .tab => ⟨{ s with app := s.app.next_field }, file, false⟩
      | .down => ⟨{ s with app := s.app.next_field }, file, false⟩
      | .backTab => ⟨{ s with app := s.app.prev_field }, file, false⟩
      | .up => ⟨{ s with app := s.app.prev_field }, file, false⟩
      | .enter =>
          let app2 := s.app.generate env.genRandom
          match s.storage, app2.get_entry env.now with
          | some store, some entry =>
              match store.save entry env.nonce env.fallbackSalt file with
              | (.ok _, file2) =>
                  ⟨{ s with app := { app2 with status_message := some "✓ Saved" } },
                   file2, false⟩
              | (.error e, file2) =>
                  ⟨{ s with app := { app2 with error := some ("Save failed: " ++ e.message) } },
                   file2, false⟩
          | _, _ => ⟨{ s with app := app2 }, file, false⟩
      | .backspace => ⟨{ s with app := s.app.pop_text }, file, false⟩
      | .char c =>
          if c = 'q' then ⟨s, file, true⟩
          else if c = 'c' then
            ⟨{ s with phase := .ChangeMasterPassword .EnterOld, master_input := "",
                      new_password := "", confirm_password := "",
                      app := { s.app with error := none, status_message := none } },
             file, false⟩
          else if c = 'v' then
            match s.storage with
            | some store =>
                match store.load file with
                | .ok entries =>
                    ⟨{ s with viewer_state := some ⟨entries, 0, ∅, none, ""⟩,
                              phase := .ViewPasswords .Browse,
                              app := { s.app with error := none } }, file, false⟩
                | .error e =>
                    ⟨{ s with app := { s.app with
                        error := some ("Failed to load: " ++ e.message) } }, file, false⟩
            | none => ⟨s, file, false⟩
          else if c = ' ' then ⟨{ s with app := s.app.toggle_current env.genRandom }, file, false⟩
          else ⟨{ s with app := s.app.push_text c }, file, false⟩
      | _ => ⟨s, file, false⟩
  | .ChangeMasterPassword st =>
      match k with
      | .esc =>
          ⟨{ s with phase := .Main, master_input := "", new_password := "",
                    confirm_password := "", app := { s.app with error := none } },
           file, false⟩
      | .enter =>
          match st with
          | .EnterOld =>
              match Storage.new (strBytes s.master_input) env.freshSalt file with
              | .ok stg =>
                  ⟨{ s with storage := some stg,
                            phase := .ChangeMasterPassword .EnterNew,
                            app := { s.app with error := none } }, file, false⟩
              | .error e =>
                  ⟨{ s with app := { s.app with error := some e.message },
                            master_input := "" }, file, false⟩
          | .EnterNew =>
              if s.new_password = "" then
                ⟨{ s with app := { s.app with error := some "Password cannot be empty" } },
                 file, false⟩
              else
                ⟨{ s with phase := .ChangeMasterPassword .ConfirmNew,
                          app := { s.app with error := none } }, file, false⟩
          | .ConfirmNew =>
              if s.confirm_password ≠ s.new_password then
                ⟨{ s with app := { s.app with error := some "Passwords don't match" },
                          confirm_password := "" }, file, false⟩
              else
                match s.storage with
                | some store =>
                    match store.change_master_password (strBytes s.new_password)
                        env.newSalt env.nonce file with
                    | (.ok new_store, file2) =>
                        ⟨{ s with storage := some new_store,
                                  app := { s.app with
                                    status_message := some "✓ Master password changed!",
                                    error := none },
                                  phase := .Main, master_input := "",
                                  new_password := "", confirm_password := "" },
                         file2, false⟩
                    | (.error e, file2) =>
                        ⟨{ s with app := { s.app with
                            error := some ("Failed: " ++ e.message) } }, file2, false⟩
                | none => ⟨s, file, false⟩
      | .backspace =>
          match st with
          | .EnterOld => ⟨{ s with master_input := s.master_input.dropRight 1 }, file, false⟩
          | .EnterNew => ⟨{ s with new_password := s.new_password.dropRight 1 }, file, false⟩
          | .ConfirmNew =>
              ⟨{ s with confirm_password := s.confirm_password.dropRight 1 }, file, false⟩
      | .char c =>
          match st with
          | .EnterOld => ⟨{ s with master_input := s.master_input.push c }, file, false⟩
          | .EnterNew => ⟨{ s with new_password := s.new_password.push c }, file, false⟩
          | .ConfirmNew => ⟨{ s with confirm_password := s.confirm_password.push c }, file, false⟩
      | _ => ⟨s, file, false⟩
  | .ViewPasswords mode =>
      match s.viewer_state with
      | none => ⟨s, file, false⟩
      | some vs =>
          match mode with
          | .Browse =>
              match k with
              | .esc => ⟨{ s with phase := .Main, viewer_state := none }, file, false⟩
              | .up =>
                  ⟨{ s with viewer_state := some { vs with
                      selected := if 0 < vs.selected then vs.selected - 1 else vs.selected,
                      status_message := none } }, file, false⟩
              | .down =>
                  ⟨{ s with viewer_state := some { vs with
                      selected := if vs.selected + 1 < vs.entries.length then vs.selected + 1
                                  else vs.selected,
                      status_message := none } }, file, false⟩
              | .enter =>
                  ⟨{ s with viewer_state := some { vs with
                      revealed := if vs.selected ∈ vs.revealed then vs.revealed.erase vs.selected
                                  else insert vs.selected vs.revealed } }, file, false⟩
              | .char c =>
                  if c = 'q' then ⟨{ s with phase := .Main, viewer_state := none }, file, false⟩
                  else if c = 'k' then
                    ⟨{ s with viewer_state := some { vs with
                        selected := if 0 < vs.selected then vs.selected - 1 else vs.selected,
                        status_message := none } }, file, false⟩
                  else if c = 'j' then
                    ⟨{ s with viewer_state := some { vs with
                        selected := if vs.selected + 1 < vs.entries.length then vs.selected + 1
                                    else vs.selected,
                        status_message := none } }, file, false⟩
                  else if c = ' ' then
                    ⟨{ s with viewer_state := some { vs with
                        revealed := if vs.selected ∈ vs.revealed
                                    then vs.revealed.erase vs.selected
                                    else insert vs.selected vs.revealed } }, file, false⟩
                  else if c = 'r' then
                    ⟨{ s with viewer_state := some { vs with
                        revealed := vs.revealed ∪ Finset.range vs.entries.length } },
                     file, false⟩
                  else if c = 'H' then
                    ⟨{ s with viewer_state := some { vs with revealed := ∅ } }, file, false⟩
                  else if c = 'y' then
                    if vs.entries ≠ [] then
                      ⟨{ s with viewer_state := some { vs with
                          status_message := match env.clipboardOk with
                          | none => some "✗ Clipboard unavailable"
                          | some true => some "✓ Copied to clipboard!"
                          | some false => some "✗ Failed to copy" } }, file, false⟩
                    else ⟨s, file, false⟩
                  else if c = 'd' then
                    if vs.entries ≠ [] then
                      ⟨{ s with phase := .ViewPasswords .ConfirmDelete }, file, false⟩
                    else ⟨s, file, false⟩
                  else if c = 'e' then
                    if vs.entries ≠ [] then
                      ⟨{ s with phase := .ViewPasswords .EditName,
                                viewer_state := some { vs with
                                  edit_buffer := (vs.entries.getD vs.selected defaultEntry).name } },
                       file, false⟩
                    else ⟨s, file, false⟩
                  else if c = 'p' then
                    if vs.entries ≠ [] then
                      ⟨{ s with phase := .ViewPasswords .EditPassword,
                                viewer_state := some { vs with
                                  edit_buffer := (vs.entries.getD vs.selected defaultEntry).password,
                                  revealed := insert vs.selected vs.revealed } },
                       file, false⟩
                    else ⟨s, file, false⟩
                  else ⟨s, file, false⟩
              | _ => ⟨s, file, false⟩
          | .ConfirmDelete =>
              match k with
              | .enter => stepConfirmDelete s file env vs
              | .char c =>
                  if c = 'y' then stepConfirmDelete s file env vs
                  else if c = 'n' then
                    ⟨{ s with phase := .ViewPasswords .Browse,
                              viewer_state := some { vs with status_message := none } },
                     file, false⟩
                  else ⟨s, file, false⟩
              | .esc =>
                  ⟨{ s with phase := .ViewPasswords .Browse,
                            viewer_state := some { vs with status_message := none } },
                   file, false⟩
              | _ => ⟨s, file, false⟩
          | .EditName =>
              match k with
              | .esc =>
                  ⟨{ s with phase := .ViewPasswords .Browse,
                            viewer_state := some { vs with
                              edit_buffer := "", status_message := none } }, file, false⟩
              | .enter => stepEditName s file env vs
              | .backspace =>
                  ⟨{ s with viewer_state := some { vs with
                      edit_buffer := vs.edit_buffer.dropRight 1 } }, file, false⟩
              | .char c =>
                  ⟨{ s with viewer_state := some { vs with
                      edit_buffer := vs.edit_buffer.push c } }, file, false⟩
              | _ => ⟨s, file, false⟩
          | .EditPassword =>
              match k with
              | .esc =>
                  ⟨{ s with phase := .ViewPasswords .Browse,
                            viewer_state := some { vs with
                              edit_buffer := "", status_message := none } }, file, false⟩
              | .enter => stepEditPassword s file env vs
              | .backspace =>
                  ⟨{ s with viewer_state := some { vs with
                      edit_buffer := vs.edit_buffer.dropRight 1 } }, file, false⟩
              | .char c =>
                  ⟨{ s with viewer_state := some { vs with
                      edit_buffer := vs.edit_buffer.push c } }, file, false⟩
              | _ => ⟨s, file, false⟩
where
  /-- The confirm branch of `ViewMode::ConfirmDelete`: delete through the
  store; on success mirror the removal locally and clamp the selection. -/
  stepConfirmDelete (s : SessionState) (file : VaultFile) (env : StepEnv)
      (vs : ViewerState) : StepResult :=
    match s.storage with
    | some store =>
        match store.delete vs.selected env.nonce env.fallbackSalt file with
        | (.ok _, file2) =>
            let entries2 := vs.entries.eraseIdx vs.selected
            let sel2 := if vs.selected ≥ entries2.length ∧ 0 < vs.selected
                        then vs.selected - 1 else vs.selected
            ⟨{ s with phase := .ViewPasswords .Browse,
                      viewer_state := some ⟨entries2, sel2, ∅, some "✓ Deleted!",
                        vs.edit_buffer⟩ }, file2, false⟩
        | (.error e, file2) =>
            ⟨{ s with phase := .ViewPasswords .Browse,
                      viewer_state := some { vs with
                        status_message := some ("✗ " ++ e.message) } }, file2, false⟩
    | none => ⟨{ s with phase := .ViewPasswords .Browse }, file, false⟩
  /-- The commit branch of `ViewMode::EditName`: a non-(trimmed-)empty
  buffer replaces the selected entry's name through `Storage::update`. -/
  stepEditName (s : SessionState) (file : VaultFile) (env : StepEnv)
      (vs : ViewerState) : StepResult :=
    if rustTrim vs.edit_buffer ≠ "" then
      match s.storage with
      | some store =>
          let entry := { vs.entries.getD vs.selected defaultEntry with name := vs.edit_buffer }
          match store.update vs.selected entry env.nonce env.fallbackSalt file with
          | (.ok _, file2) =>
              ⟨{ s with phase := .ViewPasswords .Browse,
                        viewer_state := some { vs with
                          entries := vs.entries.set vs.selected entry,
                          edit_buffer := "",
                          status_message := some "✓ Name updated!" } },
               file2, false⟩
          | (.error e, file2) =>
              ⟨{ s with phase := .ViewPasswords .Browse,
                        viewer_state := some { vs with
                          edit_buffer := "",
                          status_message := some ("✗ " ++ e.message) } }, file2, false⟩
      | none =>
          ⟨{ s with phase := .ViewPasswords .Browse,
                    viewer_state := some { vs with edit_buffer := "" } }, file, false⟩
    else
      ⟨{ s with phase := .ViewPasswords .Browse,
                viewer_state := some { vs with edit_buffer := "" } }, file, false⟩
  /-- The commit branch of `ViewMode::EditPassword`: a non-empty buffer
  replaces the selected entry's password through `Storage::update`. -/
  stepEditPassword (s : SessionState) (file : VaultFile) (env : StepEnv)
      (vs : ViewerState) : StepResult :=
    if vs.edit_buffer ≠ "" then
      match s.storage with
      | some store =>
          let entry :=
            { vs.entries.getD vs.selected defaultEntry with password := vs.edit_buffer }
          match store.update vs.selected entry env.nonce env.fallbackSalt file with
          | (.ok _, file2) =>
              ⟨{ s with phase := .ViewPasswords .Browse,
                        viewer_state := some { vs with
                          entries := vs.entries.set vs.selected entry,
                          edit_buffer := "",
                          status_message := some "✓ Password updated!" } },
               file2, false⟩
          | (.error e, file2) =>
              ⟨{ s with phase := .ViewPasswords .Browse,
                        viewer_state := some { vs with
                          edit_buffer := "",
                          status_message := some ("✗ " ++ e.message) } }, file2, false⟩
      | none =>
          ⟨{ s with phase := .ViewPasswords .Browse,
                    viewer_state := some { vs with edit_buffer := "" } }, file, false⟩
    else
      ⟨{ s with phase := .ViewPasswords .Browse,
                viewer_state := some { vs with edit_buffer := "" } }, file, false⟩

/-! ## Round trip through the storage engine -/

theorem seal_bytes_lt (key nonce : List Nat) (entries : List PasswordEntry)
    (hkey : ∀ b ∈ key, b < 256) (hnonce : ∀ b ∈ nonce, b < 256) :
    ∀ b ∈ sealAEAD key nonce (encodeEntries entries), b < 256 := by
  intro b hb
  simp only [sealAEAD, List.mem_append] at hb
  rcases hb with (hb | hb) | hb
  · exact encodeEntries_lt entries b hb
  · exact hkey b hb
  · exact hnonce b hb

/-- Loading right after `save_all` with the same key recovers the entries,
whatever the previous file contents were. -/
theorem load_save_all (key : List Nat) (entries : List PasswordEntry)
    (nonce fallback : List Nat) (file : VaultFile)
    (hkey : ∀ b ∈ key, b < 256) (hnonce : ∀ b ∈ nonce, b < 256) :
    Storage.load ⟨key⟩ (Storage.save_all ⟨key⟩ entries nonce fallback file) = .ok entries := by
  simp only [Storage.save_all, Storage.load,
    b64decode_encode nonce hnonce,
    b64decode_encode _ (seal_bytes_lt key nonce entries hkey hnonce),
    openAEAD_sealAEAD, decodeEntries_encodeEntries]

/-! ## Claim theorems -/

/-- C4: for every entry list, key and nonce, the load path (base64-decode,
AEAD open, plaintext decode) applied to the envelope produced by the save
path (encode, seal, base64-encode) returns exactly the original entry list,
whatever the previous file contents were. -/
theorem C4_save_load_roundtrip (key : List Nat) (entries : List PasswordEntry)
    (nonce fallback : List Nat) (file : VaultFile)
    (hkey : ∀ b ∈ key, b < 256) (hnonce : ∀ b ∈ nonce, b < 256) :
    Storage.load ⟨key⟩ (Storage.save_all ⟨key⟩ entries nonce fallback file) = .ok entries :=
  load_save_all key entries nonce fallback file hkey hnonce

/-- Witness for C4 at a concrete key, entry list, nonce and salt. -/
theorem C4_witness :
    Storage.load ⟨List.replicate 32 0⟩
      (Storage.save_all ⟨List.replicate 32 0⟩ [⟨"github", "pw", "0"⟩]
        (List.replicate 12 1) (List.replicate 16 2) .absent) = .ok [⟨"github", "pw", "0"⟩] :=
  C4_save_load_roundtrip (List.replicate 32 0) [⟨"github", "pw", "0"⟩]
    (List.replicate 12 1) (List.replicate 16 2) .absent (by decide) (by decide)

/-- C7: key derivation is a pure, total, deterministic function of the
passphrase and salt — equal inputs give equal keys (the embedding is a
total function, so there is no error outcome), and the output is exactly
32 bytes for every passphrase and salt. -/
theorem C7_derive_key_deterministic_total (p s p2 s2 : List Nat)
    (hp : p = p2) (hs : s = s2) :
    derive_key p s = derive_key p2 s2 ∧ (derive_key p s).length = 32 := by
  subst hp
  subst hs
  exact ⟨rfl, derive_key_length p s⟩

/-- Witness for C7 at the empty passphrase and salt. -/
theorem C7_witness :
    derive_key [] [] = derive_key [] [] ∧ (derive_key [] []).length = 32 :=
  C7_derive_key_deterministic_total [] [] [] [] rfl rfl

/-- C8: the six-position input-field ring — six `next` steps from any field
return to it, and `prev` undoes `next` on every field. -/
theorem C8_field_ring (f : InputField) :
    f.next.next.next.next.next.next = f ∧ f.next.prev = f := by
  cases f <;> exact ⟨rfl, rfl⟩

/-- C2 counterexample: a store whose `load()` fails (here: corrupt envelope)
on which `save(entry)` nevertheless succeeds and rewrites the file. -/
theorem C2_counterexample :
    Storage.load ⟨List.replicate 32 0⟩ .corrupt = .error .invalidFormat ∧
    (Storage.save ⟨List.replicate 32 0⟩ ⟨"a", "b", "c"⟩ (List.replicate 12 0)
      (List.replicate 16 0) .corrupt).1 = .ok () ∧
    (Storage.save ⟨List.replicate 32 0⟩ ⟨"a", "b", "c"⟩ (List.replicate 12 0)
      (List.replicate 16 0) .corrupt).2 ≠ .corrupt := by
  refine ⟨rfl, rfl, ?_⟩
  simp [Storage.save, Storage.save_all]

/-- C2 (amended): when `load()` fails, `save(entry)` does not fail — the
source swallows the failure with `unwrap_or_default()`, treats the vault as
empty, and overwrites the file with the single appended entry. -/
theorem C2_save_swallows_load_failure (st : Storage) (entry : PasswordEntry)
    (nonce fallback : List Nat) (file : VaultFile) (err : StorageErr)
    (h : Storage.load st file = .error err) :
    st.save entry nonce fallback file = (.ok (), st.save_all [entry] nonce fallback file) := by
  simp [Storage.save, h, Except.toOption]

/-- Witness for C2's amended theorem at a concrete corrupt file. -/
theorem C2_witness :
    Storage.save ⟨[]⟩ defaultEntry [] [] .corrupt =
      (.ok (), Storage.save_all ⟨[]⟩ [defaultEntry] [] [] .corrupt) :=
  C2_save_swallows_load_failure ⟨[]⟩ defaultEntry [] [] .corrupt .invalidFormat rfl

/-- C5: on a store whose `load()` yields `L`, `delete(i)` and `update(i, e)`
with `i` out of range fail with the index error and return the file
untouched; with `i` in range they succeed, and reloading shows `L` with the
element removed (respectively replaced) and everything else preserved. -/
theorem C5_delete_update (st : Storage) (file : VaultFile) (L : List PasswordEntry)
    (i : Nat) (e : PasswordEntry) (nonce fallback : List Nat)
    (hload : Storage.load st file = .ok L)
    (hkey : ∀ b ∈ st.master_key, b < 256) (hnonce : ∀ b ∈ nonce, b < 256) :
    (L.length ≤ i →
       st.delete i nonce fallback file = (.error .invalidIndex, file) ∧
       st.update i e nonce fallback file = (.error .invalidIndex, file)) ∧
    (i < L.length →
       (st.delete i nonce fallback file).1 = .ok () ∧
       Storage.load st (st.delete i nonce fallback file).2 = .ok (L.eraseIdx i) ∧
       (st.update i e nonce fallback file).1 = .ok () ∧
       Storage.load st (st.update i e nonce fallback file).2 = .ok (L.set i e)) := by
  constructor
  · intro hi
    constructor
    · simp only [Storage.delete, hload]
      rw [if_pos (by omega)]
    · simp only [Storage.update, hload]
      rw [if_pos (by omega)]
  · intro hi
    have hdel : st.delete i nonce fallback file =
        (.ok (), st.save_all (L.eraseIdx i) nonce fallback file) := by
      simp only [Storage.delete, hload]
      rw [if_neg (by omega)]
    have hupd : st.update i e nonce fallback file =
        (.ok (), st.save_all (L.set i e) nonce fallback file) := by
      simp only [Storage.update, hload]
      rw [if_neg (by omega)]
    refine ⟨by rw [hdel], ?_, by rw [hupd], ?_⟩
    · rw [hdel]
      exact load_save_all st.master_key _ nonce fallback file hkey hnonce
    · rw [hupd]
      exact load_save_all st.master_key _ nonce fallback file hkey hnonce

deriving instance DecidableEq for Except

/-! ### Concrete witness data -/

def wKey : List Nat := List.replicate 32 7
def wNonce : List Nat := List.replicate 12 1
def wSalt : List Nat := List.replicate 16 2
def wA : PasswordEntry := ⟨"a", "pa", "0"⟩
def wB : PasswordEntry := ⟨"b", "pb", "1"⟩
def wC : PasswordEntry := ⟨"c", "pc", "2"⟩
def wB2 : PasswordEntry := ⟨"b2", "x", "9"⟩

/-- A concrete vault file holding `[wA, wB, wC]` sealed under `wKey`. -/
def wVault : VaultFile := Storage.save_all ⟨wKey⟩ [wA, wB, wC] wNonce wSalt .absent

/-- Witness for C5 at the concrete three-entry vault and index 1. -/
theorem C5_witness :
    (([wA, wB, wC] : List PasswordEntry).length ≤ 1 →
       Storage.delete ⟨wKey⟩ 1 wNonce wSalt wVault = (.error .invalidIndex, wVault) ∧
       Storage.update ⟨wKey⟩ 1 wB2 wNonce wSalt wVault = (.error .invalidIndex, wVault)) ∧
    (1 < ([wA, wB, wC] : List PasswordEntry).length →
       (Storage.delete ⟨wKey⟩ 1 wNonce wSalt wVault).1 = .ok () ∧
       Storage.load ⟨wKey⟩ (Storage.delete ⟨wKey⟩ 1 wNonce wSalt wVault).2 =
         .ok (([wA, wB, wC] : List PasswordEntry).eraseIdx 1) ∧
       (Storage.update ⟨wKey⟩ 1 wB2 wNonce wSalt wVault).1 = .ok () ∧
       Storage.load ⟨wKey⟩ (Storage.update ⟨wKey⟩ 1 wB2 wNonce wSalt wVault).2 =
         .ok (([wA, wB, wC] : List PasswordEntry).set 1 wB2)) :=
  C5_delete_update ⟨wKey⟩ wVault [wA, wB, wC] 1 wB2 wNonce wSalt
    (by decide) (by decide) (by decide)

/-- C3: after a successful `change_master_password(new)` on a store whose
`load()` returned `L`: the call returns the store bound to the key derived
from the new passphrase and the new salt; loading through that store (or
one reopened with the new passphrase against the rewritten file) returns
exactly `L`; and loading through a store whose key is derived from any
other passphrase and the file's new stored salt fails with the
authentication error whenever its derived key differs (which is the sole
mechanism distinguishing a wrong passphrase, spec section 4.2). -/
theorem C3_change_master_password (st : Storage) (file : VaultFile)
    (L : List PasswordEntry) (new_pw newSalt nonce : List Nat)
    (hload : Storage.load st file = .ok L)
    (hsalt : ∀ b ∈ newSalt, b < 256) (hnonce : ∀ b ∈ nonce, b < 256) :
    (st.change_master_password new_pw newSalt nonce file).1 =
      .ok ⟨derive_key new_pw newSalt⟩ ∧
    Storage.load ⟨derive_key new_pw newSalt⟩
      (st.change_master_password new_pw newSalt nonce file).2 = .ok L ∧
    (∀ fresh, Storage.new new_pw fresh
      (st.change_master_password new_pw newSalt nonce file).2 =
        .ok ⟨derive_key new_pw newSalt⟩) ∧
    (∀ old_pw, derive_key old_pw newSalt ≠ derive_key new_pw newSalt →
      Storage.load ⟨derive_key old_pw newSalt⟩
        (st.change_master_password new_pw newSalt nonce file).2 =
          .error .authFailed) := by
  have hres : st.change_master_password new_pw newSalt nonce file =
      (.ok ⟨derive_key new_pw newSalt⟩,
       Storage.save_all ⟨derive_key new_pw newSalt⟩ L nonce newSalt .absent) := by
    simp only [Storage.change_master_password, hload, Storage.save_all]
  rw [hres]
  have hct := seal_bytes_lt (derive_key new_pw newSalt) nonce L
    (derive_key_lt new_pw newSalt) hnonce
  refine ⟨rfl, ?_, ?_, ?_⟩
  · exact load_save_all _ L nonce newSalt .absent (derive_key_lt new_pw newSalt) hnonce
  · intro fresh
    simp only [Storage.save_all, Storage.new, b64decode_encode newSalt hsalt]
  · intro old_pw hne
    simp only [Storage.save_all, Storage.load,
      b64decode_encode nonce hnonce, b64decode_encode _ hct]
    rw [openAEAD_wrong_key _ _ _ _ (by rw [derive_key_length, derive_key_length]) hne]

def wSalt2 : List Nat := List.replicate 16 3
def wPw : List Nat := [97]

/-- Witness for C3 at the concrete three-entry vault. -/
theorem C3_witness :
    (Storage.change_master_password ⟨wKey⟩ wPw wSalt2 wNonce wVault).1 =
      .ok ⟨derive_key wPw wSalt2⟩ ∧
    Storage.load ⟨derive_key wPw wSalt2⟩
      (Storage.change_master_password ⟨wKey⟩ wPw wSalt2 wNonce wVault).2 =
        .ok [wA, wB, wC] ∧
    (∀ fresh, Storage.new wPw fresh
      (Storage.change_master_password ⟨wKey⟩ wPw wSalt2 wNonce wVault).2 =
        .ok ⟨derive_key wPw wSalt2⟩) ∧
    (∀ old_pw, derive_key old_pw wSalt2 ≠ derive_key wPw wSalt2 →
      Storage.load ⟨derive_key old_pw wSalt2⟩
        (Storage.change_master_password ⟨wKey⟩ wPw wSalt2 wNonce wVault).2 =
          .error .authFailed) :=
  C3_change_master_password ⟨wKey⟩ wVault [wA, wB, wC] wPw wSalt2 wNonce
    (by decide) (by decide) (by decide)

/-- C1 (refuting theorem): over an absent vault file, `Storage::new` derives
the master key from its freshly drawn salt `s1` but discards it (`_salt`),
and the first `save` writes a different freshly drawn salt `s2` into the
envelope — not the store's generated one.  Consequently reopening with the
same passphrase derives the key from `s2`, and loading fails with the
authentication error whenever the two derived keys differ. -/
theorem C1_fresh_save_discards_generated_salt (pw s1 s2 nonce : List Nat)
    (entry : PasswordEntry) (hs2 : ∀ b ∈ s2, b < 256)
    (hnonce : ∀ b ∈ nonce, b < 256) (hne : s2 ≠ s1) :
    ∀ st, Storage.new pw s1 .absent = .ok st →
    ∃ env, (st.save entry nonce s2 .absent).2 = .stored env ∧
      b64decode env.salt = some s2 ∧
      b64decode env.salt ≠ some s1 ∧
      (∀ fresh, Storage.new pw fresh (.stored env) = .ok ⟨derive_key pw s2⟩) ∧
      (derive_key pw s2 ≠ derive_key pw s1 →
        Storage.load ⟨derive_key pw s2⟩ (.stored env) = .error .authFailed) := by
  intro st hnew
  have hst : st = ⟨derive_key pw s1⟩ := by
    simpa [Storage.new] using hnew.symm
  subst hst
  have hsave : (Storage.save ⟨derive_key pw s1⟩ entry nonce s2 .absent).2 =
      Storage.save_all ⟨derive_key pw s1⟩ [entry] nonce s2 .absent := by
    simp [Storage.save, Storage.load, Except.toOption]
  have hct := seal_bytes_lt (derive_key pw s1) nonce [entry]
    (derive_key_lt pw s1) hnonce
  refine ⟨⟨b64encode s2, b64encode nonce,
    b64encode (sealAEAD (derive_key pw s1) nonce (encodeEntries [entry]))⟩,
    ?_, ?_, ?_, ?_, ?_⟩
  · rw [hsave]
    simp only [Storage.save_all]
  · exact b64decode_encode s2 hs2
  · rw [b64decode_encode s2 hs2]
    simp [hne]
  · intro fresh
    simp only [Storage.new, b64decode_encode s2 hs2]
  · intro hkeys
    simp only [Storage.load, b64decode_encode nonce hnonce, b64decode_encode _ hct]
    rw [openAEAD_wrong_key _ _ _ _ (by rw [derive_key_length, derive_key_length]) hkeys]

def wSaltA : List Nat := List.replicate 16 0
def wSaltB : List Nat := 1 :: List.replicate 15 0

/-- Witness for C1's refuting theorem at a concrete fresh-vault run. -/
theorem C1_witness :
    ∃ env, (Storage.save ⟨derive_key wPw wSaltA⟩ wA wNonce wSaltB .absent).2 = .stored env ∧
      b64decode env.salt = some wSaltB ∧
      b64decode env.salt ≠ some wSaltA ∧
      (∀ fresh, Storage.new wPw fresh (.stored env) = .ok ⟨derive_key wPw wSaltB⟩) ∧
      (derive_key wPw wSaltB ≠ derive_key wPw wSaltA →
        Storage.load ⟨derive_key wPw wSaltB⟩ (.stored env) = .error .authFailed) :=
  C1_fresh_save_discards_generated_salt wPw wSaltA wSaltB wNonce wA
    (by decide) (by decide) (by decide) ⟨derive_key wPw wSaltA⟩ rfl

/-- C6: `generate` fails with the name-validation message when the trimmed
name is empty; with the invalid-length message when the length text does
not parse as a usize; with the range message when the parsed value is
outside 1..=128; with the character-class message when no class is enabled;
and otherwise succeeds with a password of exactly `n` characters drawn only
from the enabled classes. -/
theorem C6_generate (app : App) (r : Nat → Nat) :
    (rustTrim app.name_input = "" →
       (app.generate r).error = some "Please enter a password name" ∧
       (app.generate r).generated_password = none) ∧
    (rustTrim app.name_input ≠ "" → parseUsize app.length_input = none →
       (app.generate r).error = some "Invalid length" ∧
       (app.generate r).generated_password = none) ∧
    (∀ n, rustTrim app.name_input ≠ "" → parseUsize app.length_input = some n →
       ¬ (0 < n ∧ n ≤ 128) →
       (app.generate r).error = some "Length must be 1-128" ∧
       (app.generate r).generated_password = none) ∧
    (∀ n, rustTrim app.name_input ≠ "" → parseUsize app.length_input = some n →
       0 < n ∧ n ≤ 128 →
       app.use_letters = false → app.use_numbers = false → app.use_special = false →
       (app.generate r).error = some "Enable at least one character type" ∧
       (app.generate r).generated_password = none) ∧
    (∀ n, rustTrim app.name_input ≠ "" → parseUsize app.length_input = some n →
       0 < n ∧ n ≤ 128 →
       (∀ i, r i < (charsetOf app.use_letters app.use_numbers app.use_special).length) →
       charsetOf app.use_letters app.use_numbers app.use_special ≠ [] →
       ∃ pwd, (app.generate r).generated_password = some pwd ∧
         (app.generate r).error = none ∧
         pwd.length = n ∧
         ∀ c ∈ pwd.data, c ∈ charsetOf app.use_letters app.use_numbers app.use_special) := by
  refine ⟨?_, ?_, ?_, ?_, ?_⟩
  · intro h
    simp [App.generate, h]
  · intro h hp
    simp [App.generate, h, hp]
  · intro n h hp hn
    simp [App.generate, h, hp, hn]
  · intro n h hp hn hl hd hs
    have hcs : charsetOf app.use_letters app.use_numbers app.use_special = [] := by
      rw [hl, hd, hs]
      rfl
    simp [App.generate, h, hp, hn, hcs]
  · intro n h hp hn hr hcs
    refine ⟨String.mk ((List.range n).map
      (fun i => (charsetOf app.use_letters app.use_numbers app.use_special).getD (r i) 'a')),
      ?_, ?_, ?_, ?_⟩
    · simp [App.generate, h, hp, hn, hcs]
    · simp [App.generate, h, hp, hn, hcs]
    · simp [String.length]
    · intro c hc
      rcases List.mem_map.mp hc with ⟨i, hi, rfl⟩
      rw [List.getD_eq_getElem _ 'a' (hr i)]
      exact List.getElem_mem (hr i)

def wApp : App :=
  { App.new with name_input := "x", length_input := "12",
                 use_letters := false, use_numbers := true, use_special := false }

def wR : Nat → Nat := fun _ => 0

/-- Witness for C6: with letters off, digits on, special off and length
text "12", generation succeeds with a 12-character all-digit password. -/
theorem C6_witness :
    ∃ pwd, (wApp.generate wR).generated_password = some pwd ∧
      (wApp.generate wR).error = none ∧
      pwd.length = 12 ∧
      ∀ c ∈ pwd.data, c ∈ charsetOf wApp.use_letters wApp.use_numbers wApp.use_special :=
  by
  apply (C6_generate wApp wR).2.2.2.2 12
  · decide
  · decide
  · decide
  · intro i
    show (0 : Nat) < (charsetOf wApp.use_letters wApp.use_numbers wApp.use_special).length
    decide
  · decide

/-- C9: submitting any passphrase at rotation step EnterOld over an existing
parseable vault file immediately rebinds the session's storage to a store
whose key is derived from the submitted input and the stored salt — no load
or decryption happens, so this succeeds even for a wrong passphrase — and a
subsequent Escape returns to Main still bound to the rebound store. -/
theorem C9_enter_old_rebinds (s : SessionState) (env env2 : StepEnv)
    (envl : EncryptedStore) (salt : List Nat)
    (hphase : s.phase = .ChangeMasterPassword .EnterOld)
    (hsalt : b64decode envl.salt = some salt) :
    (step s (.stored envl) env .enter).state.storage =
      some ⟨derive_key (strBytes s.master_input) salt⟩ ∧
    (step s (.stored envl) env .enter).state.phase = .ChangeMasterPassword .EnterNew ∧
    (step s (.stored envl) env .enter).file = .stored envl ∧
    (step (step s (.stored envl) env .enter).state (.stored envl) env2 .esc).state.phase =
      .Main ∧
    (step (step s (.stored envl) env .enter).state (.stored envl) env2 .esc).state.storage =
      some ⟨derive_key (strBytes s.master_input) salt⟩ := by
  obtain ⟨app, phase, mi, np, cp, stg, vst⟩ := s
  simp only at hphase
  subst hphase
  simp [step.eq_def, Storage.new, hsalt]

def wEnvStore : EncryptedStore :=
  ⟨b64encode wSalt, b64encode wNonce, b64encode (sealAEAD wKey wNonce (encodeEntries [wA, wB, wC]))⟩

def wSession : SessionState :=
  { SessionState.init with phase := .ChangeMasterPassword .EnterOld, master_input := "w" }

def wEnv : StepEnv :=
  { freshSalt := wSaltA, newSalt := wSalt2, nonce := wNonce, fallbackSalt := wSalt,
    genRandom := fun _ => 0, clipboardOk := some true, now := "0" }

/-- Witness for C9 at a concrete rotation state over a concrete vault. -/
theorem C9_witness :
    (step wSession (.stored wEnvStore) wEnv .enter).state.storage =
      some ⟨derive_key (strBytes wSession.master_input) wSalt⟩ ∧
    (step wSession (.stored wEnvStore) wEnv .enter).state.phase =
      .ChangeMasterPassword .EnterNew ∧
    (step wSession (.stored wEnvStore) wEnv .enter).file = .stored wEnvStore ∧
    (step (step wSession (.stored wEnvStore) wEnv .enter).state
      (.stored wEnvStore) wEnv .esc).state.phase = .Main ∧
    (step (step wSession (.stored wEnvStore) wEnv .enter).state
      (.stored wEnvStore) wEnv .esc).state.storage =
      some ⟨derive_key (strBytes wSession.master_input) wSalt⟩ :=
  C9_enter_old_rebinds wSession wEnv wEnv wEnvStore wSalt rfl (by decide)

/-! ## Viewer invariant (C10) -/

/-- The selection invariant of the password viewer. -/
def viewerInv (vs : ViewerState) : Prop :=
  (vs.entries ≠ [] → vs.selected < vs.entries.length) ∧
  (vs.entries = [] → vs.selected = 0)

/-- Session-level invariant: whenever the session is in a `ViewPasswords`
mode with a live viewer, the viewer satisfies `viewerInv`, and outside
`Browse` the entry list is non-empty (those modes are only entered from
`Browse` under a non-emptiness guard). -/
def sessionInv (s : SessionState) : Prop :=
  ∀ mode vs, s.phase = .ViewPasswords mode → s.viewer_state = some vs →
    viewerInv vs ∧ (mode ≠ .Browse → vs.entries ≠ [])

/-- Session states reachable from the top of `run` under arbitrary key
events, file contents and environments. -/
inductive Reachable : SessionState → Prop where
  | init : Reachable SessionState.init
  | next (s : SessionState) (file : VaultFile) (env : StepEnv) (k : KeyCode) :
      Reachable s → Reachable (step s file env k).state

theorem sessionInv_of_not_view (s : SessionState)
    (h : ∀ m, s.phase ≠ .ViewPasswords m) : sessionInv s :=
  fun m _ hph _ => absurd hph (h m)

theorem sessionInv_view_none (s : SessionState) (h : s.viewer_state = none) :
    sessionInv s := by
  intro m vs hph hvs
  rw [h] at hvs
  exact absurd hvs (by simp)

theorem sessionInv_view (mode : ViewMode) (vs : ViewerState)
    (app : App) (mi np cp : String) (stg : Option Storage)
    (h1 : viewerInv vs) (h2 : mode ≠ .Browse → vs.entries ≠ []) :
    sessionInv ⟨app, .ViewPasswords mode, mi, np, cp, stg, some vs⟩ := by
  intro m2 v2 hph hv2
  obtain rfl := Phase.ViewPasswords.inj hph
  obtain rfl := Option.some.inj hv2
  exact ⟨h1, h2⟩

theorem confirmDelete_inv (s : SessionState) (file : VaultFile) (env : StepEnv)
    (vs : ViewerState) (hvst : s.viewer_state = some vs) (hinv : viewerInv vs)
    (hsel : vs.selected < vs.entries.length) :
    sessionInv (step.stepConfirmDelete s file env vs).state := by
  obtain ⟨app, phase, mi, np, cp, stg, vst⟩ := s
  simp only at hvst
  subst hvst
  rw [step.stepConfirmDelete.eq_def]
  rcases stg with _ | store
  · exact sessionInv_view .Browse _ _ _ _ _ _ hinv (by simp)
  · rcases hdel : store.delete vs.selected env.nonce env.fallbackSalt file with ⟨res, file2⟩
    cases res with
    | ok u =>
        simp only [hdel]
        have hlen := List.length_eraseIdx_add_one hsel
        apply sessionInv_view
        · dsimp only [viewerInv]
          refine ⟨fun hne => ?_, fun he => ?_⟩
          · have hpos : 0 < (vs.entries.eraseIdx vs.selected).length :=
              List.length_pos.mpr hne
            split_ifs <;> omega
          · have hzero : (vs.entries.eraseIdx vs.selected).length = 0 := by
              simp [he]
            split_ifs <;> omega
        · simp
    | error e =>
        simp only [hdel]
        exact sessionInv_view .Browse _ _ _ _ _ _ ⟨hinv.1, hinv.2⟩ (by simp)

theorem editName_inv (s : SessionState) (file : VaultFile) (env : StepEnv)
    (vs : ViewerState) (hvst : s.viewer_state = some vs)
    (hinv : viewerInv vs) (hsel : vs.selected < vs.entries.length) :
    sessionInv (step.stepEditName s file env vs).state := by
  obtain ⟨app, phase, mi, np, cp, stg, vst⟩ := s
  simp only at hvst
  subst hvst
  rw [step.stepEditName.eq_def]
  have hset : ∀ e : PasswordEntry,
      viewerInv { vs with
        entries := vs.entries.set vs.selected e,
        edit_buffer := "",
        status_message := some "✓ Name updated!" } := by
    intro e
    dsimp only [viewerInv]
    refine ⟨fun hne => ?_, fun he => ?_⟩
    · simpa [List.length_set] using hsel
    · have hzero : (vs.entries.set vs.selected e).length = 0 := by
        simp [he]
      rw [List.length_set] at hzero
      omega
  have hkeep : viewerInv { vs with edit_buffer := "" } := ⟨hinv.1, hinv.2⟩
  dsimp only
  by_cases hbuf : rustTrim vs.edit_buffer ≠ ""
  · rw [if_pos hbuf]
    rcases stg with _ | store
    · exact sessionInv_view .Browse _ _ _ _ _ _ hkeep (by simp)
    · dsimp only
      split
      · exact sessionInv_view .Browse _ _ _ _ _ _ (hset _) (by simp)
      · exact sessionInv_view .Browse _ _ _ _ _ _ hkeep (by simp)
  · rw [if_neg hbuf]
    exact sessionInv_view .Browse _ _ _ _ _ _ hkeep (by simp)

theorem editPassword_inv (s : SessionState) (file : VaultFile) (env : StepEnv)
    (vs : ViewerState) (hvst : s.viewer_state = some vs)
    (hinv : viewerInv vs) (hsel : vs.selected < vs.entries.length) :
    sessionInv (step.stepEditPassword s file env vs).state := by
  obtain ⟨app, phase, mi, np, cp, stg, vst⟩ := s
  simp only at hvst
  subst hvst
  rw [step.stepEditPassword.eq_def]
  have hset : ∀ e : PasswordEntry,
      viewerInv { vs with
        entries := vs.entries.set vs.selected e,
        edit_buffer := "",
        status_message := some "✓ Password updated!" } := by
    intro e
    dsimp only [viewerInv]
    refine ⟨fun hne => ?_, fun he => ?_⟩
    · simpa [List.length_set] using hsel
    · have hzero : (vs.entries.set vs.selected e).length = 0 := by
        simp [he]
      rw [List.length_set] at hzero
      omega
  have hkeep : viewerInv { vs with edit_buffer := "" } := ⟨hinv.1, hinv.2⟩
  dsimp only
  by_cases hbuf : vs.edit_buffer ≠ ""
  · rw [if_pos hbuf]
    rcases stg with _ | store
    · exact sessionInv_view .Browse _ _ _ _ _ _ hkeep (by simp)
    · dsimp only
      split
      · exact sessionInv_view .Browse _ _ _ _ _ _ (hset _) (by simp)
      · exact sessionInv_view .Browse _ _ _ _ _ _ hkeep (by simp)
  · rw [if_neg hbuf]
    exact sessionInv_view .Browse _ _ _ _ _ _ hkeep (by simp)

set_option maxHeartbeats 1000000 in
theorem stepPreservesInv (s : SessionState) (file : VaultFile) (env : StepEnv)
    (k : KeyCode) (h : sessionInv s) : sessionInv (step s file env k).state := by
  obtain ⟨app, phase, mi, np, cp, stg, vst⟩ := s
  rw [step.eq_def]
  cases phase with
  | MasterPassword =>
      cases k with
      | esc => exact sessionInv_of_not_view _ (by intro m; simp)
      | enter =>
          by_cases hmi : mi = ""
          · simp only [if_pos hmi]
            exact sessionInv_of_not_view _ (by intro m; simp)
          · simp only [if_neg hmi]
            cases hnew : Storage.new (strBytes mi) env.freshSalt file with
            | ok st => exact sessionInv_of_not_view _ (by intro m; simp)
            | error e => exact sessionInv_of_not_view _ (by intro m; simp)
      | backspace => exact sessionInv_of_not_view _ (by intro m; simp)
      | tab => exact sessionInv_of_not_view _ (by intro m; simp)
      | backTab => exact sessionInv_of_not_view _ (by intro m; simp)
      | up => exact sessionInv_of_not_view _ (by intro m; simp)
      | down => exact sessionInv_of_not_view _ (by intro m; simp)
      | char c => exact sessionInv_of_not_view _ (by intro m; simp)
      | other => exact sessionInv_of_not_view _ (by intro m; simp)
  | Main =>
      cases k with
      | esc => exact sessionInv_of_not_view _ (by intro m; simp)
      | tab => exact sessionInv_of_not_view _ (by intro m; simp)
      | backTab => exact sessionInv_of_not_view _ (by intro m; simp)
      | up => exact sessionInv_of_not_view _ (by intro m; simp)
      | down => exact sessionInv_of_not_view _ (by intro m; simp)
      | backspace => exact sessionInv_of_not_view _ (by intro m; simp)
      | other => exact sessionInv_of_not_view _ (by intro m; simp)
      | enter =>
          rcases stg with _ | store
          · exact sessionInv_of_not_view _ (by intro m; simp)
          · cases hge : (app.generate env.genRandom).get_entry env.now with
            | none =>
                simp only [hge]
                exact sessionInv_of_not_view _ (by intro m; simp)
            | some entry =>
                simp only [hge]
                exact sessionInv_of_not_view _ (by intro m; simp [Storage.save])
      | char c =>
          by_cases hq : c = 'q'
          · simp only [if_pos hq]
            exact sessionInv_of_not_view _ (by intro m; simp)
          · simp only [if_neg hq]
            by_cases hc : c = 'c'
            · simp only [if_pos hc]
              exact sessionInv_of_not_view _ (by intro m; simp)
            · simp only [if_neg hc]
              by_cases hv : c = 'v'
              · simp only [if_pos hv]
                rcases stg with _ | store
                · exact sessionInv_of_not_view _ (by intro m; simp)
                · cases hload : store.load file with
                  | ok entries =>
                      simp only [hload]
                      apply sessionInv_view
                      · exact ⟨fun hne => List.length_pos.mpr hne, fun _ => rfl⟩
                      · simp
                  | error e =>
                      simp only [hload]
                      exact sessionInv_of_not_view _ (by intro m; simp)
              · simp only [if_neg hv]
                by_cases hsp : c = ' '
                · simp only [if_pos hsp]
                  exact sessionInv_of_not_view _ (by intro m; simp)
                · simp only [if_neg hsp]
                  exact sessionInv_of_not_view _ (by intro m; simp)
  | ChangeMasterPassword st =>
      cases k with
      | esc => exact sessionInv_of_not_view _ (by intro m; simp)
      | tab => exact sessionInv_of_not_view _ (by intro m; simp)
      | backTab => exact sessionInv_of_not_view _ (by intro m; simp)
      | up => exact sessionInv_of_not_view _ (by intro m; simp)
      | down => exact sessionInv_of_not_view _ (by intro m; simp)
      | other => exact sessionInv_of_not_view _ (by intro m; simp)
      | backspace =>
          cases st <;> exact sessionInv_of_not_view _ (by intro m; simp)
      | char c =>
          cases st <;> exact sessionInv_of_not_view _ (by intro m; simp)
      | enter =>
          cases st with
          | EnterOld =>
              cases hnew : Storage.new (strBytes mi) env.freshSalt file with
              | ok stg2 => exact sessionInv_of_not_view _ (by intro m; simp)
              | error e => exact sessionInv_of_not_view _ (by intro m; simp)
          | EnterNew =>
              by_cases hnp : np = ""
              · simp only [if_pos hnp]
                exact sessionInv_of_not_view _ (by intro m; simp)
              · simp only [if_neg hnp]
                exact sessionInv_of_not_view _ (by intro m; simp)
          | ConfirmNew =>
              by_cases hx : cp ≠ np
              · simp only [if_pos hx]
                exact sessionInv_of_not_view _ (by intro m; simp)
              · simp only [if_neg hx]
                rcases stg with _ | store
                · exact sessionInv_of_not_view _ (by intro m; simp)
                · rcases hch : store.change_master_password (strBytes np)
                    env.newSalt env.nonce file with ⟨res, file2⟩
                  cases res with
                  | ok ns =>
                      simp only [hch]
                      exact sessionInv_of_not_view _ (by intro m; simp)
                  | error e =>
                      simp only [hch]
                      exact sessionInv_of_not_view _ (by intro m; simp)
  | ViewPasswords mode =>
      rcases vst with _ | vs
      · exact sessionInv_view_none _ rfl
      · obtain ⟨hv1, hv2⟩ := h mode vs rfl rfl
        cases mode with
        | Browse =>
            cases k with
            | esc => exact sessionInv_view_none _ rfl
            | tab => exact sessionInv_view .Browse _ _ _ _ _ _ hv1 (by simp)
            | backTab => exact sessionInv_view .Browse _ _ _ _ _ _ hv1 (by simp)
            | backspace => exact sessionInv_view .Browse _ _ _ _ _ _ hv1 (by simp)
            | other => exact sessionInv_view .Browse _ _ _ _ _ _ hv1 (by simp)
            | enter => exact sessionInv_view .Browse _ _ _ _ _ _ ⟨hv1.1, hv1.2⟩ (by simp)
            | up =>
                apply sessionInv_view .Browse
                · dsimp only [viewerInv]
                  refine ⟨fun hne => ?_, fun he => ?_⟩
                  · have := hv1.1 hne
                    split_ifs <;> omega
                  · have := hv1.2 he
                    split_ifs <;> omega
                · simp
            | down =>
                apply sessionInv_view .Browse
                · dsimp only [viewerInv]
                  refine ⟨fun hne => ?_, fun he => ?_⟩
                  · have := hv1.1 hne
                    split_ifs <;> omega
                  · have := hv1.2 he
                    have h0 : vs.entries.length = 0 := by simp [he]
                    split_ifs <;> omega
                · simp
            | char c =>
                dsimp only
                by_cases hq : c = 'q'
                · rw [if_pos hq]
                  exact sessionInv_view_none _ rfl
                · rw [if_neg hq]
                  by_cases hk : c = 'k'
                  · rw [if_pos hk]
                    apply sessionInv_view .Browse
                    · dsimp only [viewerInv]
                      refine ⟨fun hne => ?_, fun he => ?_⟩
                      · have := hv1.1 hne
                        split_ifs <;> omega
                      · have := hv1.2 he
                        split_ifs <;> omega
                    · simp
                  · rw [if_neg hk]
                    by_cases hj : c = 'j'
                    · rw [if_pos hj]
                      apply sessionInv_view .Browse
                      · dsimp only [viewerInv]
                        refine ⟨fun hne => ?_, fun he => ?_⟩
                        · have := hv1.1 hne
                          split_ifs <;> omega
                        · have := hv1.2 he
                          have h0 : vs.entries.length = 0 := by simp [he]
                          split_ifs <;> omega
                      · simp
                    · rw [if_neg hj]
                      by_cases hsp : c = ' '
                      · rw [if_pos hsp]
                        exact sessionInv_view .Browse _ _ _ _ _ _ ⟨hv1.1, hv1.2⟩ (by simp)
                      · rw [if_neg hsp]
                        by_cases hr : c = 'r'
                        · rw [if_pos hr]
                          exact sessionInv_view .Browse _ _ _ _ _ _ hv1 (by simp)
                        · rw [if_neg hr]
                          by_cases hH : c = 'H'
                          · rw [if_pos hH]
                            exact sessionInv_view .Browse _ _ _ _ _ _ hv1 (by simp)
                          · rw [if_neg hH]
                            by_cases hy : c = 'y'
                            · rw [if_pos hy]
                              by_cases hne : vs.entries ≠ []
                              · rw [if_pos hne]
                                exact sessionInv_view .Browse _ _ _ _ _ _ hv1 (by simp)
                              · rw [if_neg hne]
                                exact sessionInv_view .Browse _ _ _ _ _ _ hv1 (by simp)
                            · rw [if_neg hy]
                              by_cases hd : c = 'd'
                              · rw [if_pos hd]
                                by_cases hne : vs.entries ≠ []
                                · rw [if_pos hne]
                                  exact sessionInv_view .ConfirmDelete _ _ _ _ _ _ hv1
                                    (fun _ => hne)
                                · rw [if_neg hne]
                                  exact sessionInv_view .Browse _ _ _ _ _ _ hv1 (by simp)
                              · rw [if_neg hd]
                                by_cases he : c = 'e'
                                · rw [if_pos he]
                                  by_cases hne : vs.entries ≠ []
                                  · rw [if_pos hne]
                                    exact sessionInv_view .EditName _ _ _ _ _ _
                                      ⟨hv1.1, hv1.2⟩ (fun _ => hne)
                                  · rw [if_neg hne]
                                    exact sessionInv_view .Browse _ _ _ _ _ _ hv1 (by simp)
                                · rw [if_neg he]
                                  by_cases hp : c = 'p'
                                  · rw [if_pos hp]
                                    by_cases hne : vs.entries ≠ []
                                    · rw [if_pos hne]
                                      exact sessionInv_view .EditPassword _ _ _ _ _ _
                                        ⟨hv1.1, hv1.2⟩ (fun _ => hne)
                                    · rw [if_neg hne]
                                      exact sessionInv_view .Browse _ _ _ _ _ _ hv1 (by simp)
                                  · rw [if_neg hp]
                                    exact sessionInv_view .Browse _ _ _ _ _ _ hv1 (by simp)
        | ConfirmDelete =>
            have hne : vs.entries ≠ [] := hv2 (by simp)
            have hsel : vs.selected < vs.entries.length := hv1.1 hne
            cases k with
            | enter => exact confirmDelete_inv _ file env vs rfl hv1 hsel
            | esc => exact sessionInv_view .Browse _ _ _ _ _ _ ⟨hv1.1, hv1.2⟩ (by simp)
            | tab => exact sessionInv_view .ConfirmDelete _ _ _ _ _ _ hv1 hv2
            | backTab => exact sessionInv_view .ConfirmDelete _ _ _ _ _ _ hv1 hv2
            | up => exact sessionInv_view .ConfirmDelete _ _ _ _ _ _ hv1 hv2
            | down => exact sessionInv_view .ConfirmDelete _ _ _ _ _ _ hv1 hv2
            | backspace => exact sessionInv_view .ConfirmDelete _ _ _ _ _ _ hv1 hv2
            | other => exact sessionInv_view .ConfirmDelete _ _ _ _ _ _ hv1 hv2
            | char c =>
                dsimp only
                by_cases hy : c = 'y'
                · rw [if_pos hy]
                  exact confirmDelete_inv _ file env vs rfl hv1 hsel
                · rw [if_neg hy]
                  by_cases hn : c = 'n'
                  · rw [if_pos hn]
                    exact sessionInv_view .Browse _ _ _ _ _ _ ⟨hv1.1, hv1.2⟩ (by simp)
                  · rw [if_neg hn]
                    exact sessionInv_view .ConfirmDelete _ _ _ _ _ _ hv1 hv2
        | EditName =>
            have hne : vs.entries ≠ [] := hv2 (by simp)
            have hsel : vs.selected < vs.entries.length := hv1.1 hne
            cases k with
            | enter => exact editName_inv _ file env vs rfl hv1 hsel
            | esc => exact sessionInv_view .Browse _ _ _ _ _ _ ⟨hv1.1, hv1.2⟩ (by simp)
            | backspace =>
                exact sessionInv_view .EditName _ _ _ _ _ _ ⟨hv1.1, hv1.2⟩ (fun _ => hne)
            | char c =>
                exact sessionInv_view .EditName _ _ _ _ _ _ ⟨hv1.1, hv1.2⟩ (fun _ => hne)
            | tab => exact sessionInv_view .EditName _ _ _ _ _ _ hv1 hv2
            | backTab => exact sessionInv_view .EditName _ _ _ _ _ _ hv1 hv2
            | up => exact sessionInv_view .EditName _ _ _ _ _ _ hv1 hv2
            | down => exact sessionInv_view .EditName _ _ _ _ _ _ hv1 hv2
            | other => exact sessionInv_view .EditName _ _ _ _ _ _ hv1 hv2
        | EditPassword =>
            have hne : vs.entries ≠ [] := hv2 (by simp)
            have hsel : vs.selected < vs.entries.length := hv1.1 hne
            cases k with
            | enter => exact editPassword_inv _ file env vs rfl hv1 hsel
            | esc => exact sessionInv_view .Browse _ _ _ _ _ _ ⟨hv1.1, hv1.2⟩ (by simp)
            | backspace =>
                exact sessionInv_view .EditPassword _ _ _ _ _ _ ⟨hv1.1, hv1.2⟩ (fun _ => hne)
            | char c =>
                exact sessionInv_view .EditPassword _ _ _ _ _ _ ⟨hv1.1, hv1.2⟩ (fun _ => hne)
            | tab => exact sessionInv_view .EditPassword _ _ _ _ _ _ hv1 hv2
            | backTab => exact sessionInv_view .EditPassword _ _ _ _ _ _ hv1 hv2
            | up => exact sessionInv_view .EditPassword _ _ _ _ _ _ hv1 hv2
            | down => exact sessionInv_view .EditPassword _ _ _ _ _ _ hv1 hv2
            | other => exact sessionInv_view .EditPassword _ _ _ _ _ _ hv1 hv2


/-- C10: in every reachable `ViewPasswords` state the viewer keeps the
selection invariant — a non-empty entry list has `selected` strictly below
its length and an empty one has `selected = 0` — every viewer intent
preserves it, and outside `Browse` the entry list is non-empty, so every
entry-list indexing in the viewer handlers is in bounds. -/
theorem C10_viewer_invariant :
    (∀ s, Reachable s → sessionInv s) ∧
    (∀ s mode vs, Reachable s → s.phase = .ViewPasswords mode →
       s.viewer_state = some vs →
       (vs.entries ≠ [] → vs.selected < vs.entries.length) ∧
       (vs.entries = [] → vs.selected = 0) ∧
       (mode ≠ .Browse → vs.selected < vs.entries.length)) := by
  have hreach : ∀ s, Reachable s → sessionInv s := by
    intro s hr
    induction hr with
    | init => exact sessionInv_view_none _ rfl
    | next s file env k hr ih => exact stepPreservesInv s file env k ih
  refine ⟨hreach, ?_⟩
  intro s mode vs hr hph hvs
  obtain ⟨hv1, hv2⟩ := hreach s hr mode vs hph hvs
  exact ⟨hv1.1, hv1.2, fun hm => hv1.1 (hv2 hm)⟩

/-- Witness for C10 at the initial session state. -/
theorem C10_witness : sessionInv SessionState.init :=
  C10_viewer_invariant.1 SessionState.init Reachable.init
